import Mathlib

/-!
Verification development for the ComfyUI-NAG core (Normalized Attention
Guidance for diffusion transformers).

The embedding covers:
* the guidance primitive `nag`, the context concatenation `cat_context`
  and the activation predicate `check_nag_activation` (these live in
  `utils.py`, which is not among the provided sources, so they are
  modelled from the specification);
* the joint-family guided block mixing `_nag_block_mixing` from
  `sd3/mmdit.py`;
* the dual-stream guided forward pass `NAGFlux.forward_orig` /
  `NAGFlux.forward` from `flux/model.py`;
* the enable/disable method rebinding (`set_nag_flux`, `set_origin_flux`,
  `set_nag_sd3`, `set_origin_sd3`).

Machine floats are modelled over the rationals.  A checked division
(`pdiv`, returning `none` on a zero denominator) marks the places where
floating point could produce non-finite values, so `Option` tracks
definedness of the numeric computations.  Tensors are nested lists with
the batch axis outermost; batch slicing `t[-o:]` / `t[:-o]` is modelled
by `pyTakeLast` / `pyDropLast`.
-/

/-- Batch-of-rows tensor: each element of the outer list is one feature row. -/
abbrev Tensor2 : Type := List (List ℚ)

/-- Rank-3 tensor: batch of samples, each a sequence of feature rows. -/
abbrev Tensor3 : Type := List (List (List ℚ))

/-- Python slice `xs[-o:]` for a nonnegative `o` (for `o = 0` Python reads `xs[0:] = xs`). -/
def pyTakeLast (o : Nat) (xs : List α) : List α :=
  if o = 0 then xs else xs.drop (xs.length - o)

/-- Python slice `xs[:-o]` for a nonnegative `o` (for `o = 0` Python reads `xs[:0] = []`). -/
def pyDropLast (o : Nat) (xs : List α) : List α :=
  if o = 0 then [] else xs.take (xs.length - o)

/-- Checked division: `none` on a zero denominator, the place where IEEE floats
would produce a non-finite value. -/
def pdiv (a b : ℚ) : Option ℚ :=
  if b = 0 then none else some (a / b)

/-- Collect a list of checked results, failing if any entry failed. -/
def optList : List (Option α) → Option (List α)
  | [] => some []
  | none :: _ => none
  | some a :: rest =>
    match optList rest with
    | some t => some (a :: t)
    | none => none

/-- L1 norm of a feature row (torch.norm with p = 1 along the feature axis). -/
def l1norm (xs : List ℚ) : ℚ := (xs.map (fun x => |x|)).sum

/-- Modelled from the spec: the guidance primitive `nag` lives in `utils.py`,
which is not among the provided sources.  Per-row computation along the
feature axis (spec §4.1): `guidance = positive * scale - negative * (scale - 1)`,
norm ratio `r = ‖guidance‖₁ / ‖positive‖₁`, clamp factor `min 1 (tau / r)`
with zero-norm positive rows treated specially (clamp defaults to 1, no
division), then the blend `guidance * alpha + positive * (1 - alpha)`. -/
def nagRow (positive negative : List ℚ) (scale tau alpha : ℚ) : Option (List ℚ) :=
  let guidance := List.zipWith (fun p n => p * scale - n * (scale - 1)) positive negative
  let normPositive := l1norm positive
  if normPositive = 0 then
    some (List.zipWith (fun g p => g * alpha + p * (1 - alpha)) guidance positive)
  else
    let r := l1norm guidance / normPositive
    match pdiv tau r with
    | none => none
    | some q =>
      let clamp := min 1 q
      let clamped := guidance.map (fun g => g * clamp)
      some (List.zipWith (fun g p => g * alpha + p * (1 - alpha)) clamped positive)

/-- Modelled from the spec: tensor-level `nag` from `utils.py` (not among the
sources), applying `nagRow` to each corresponding pair of feature rows. -/
def nag (positive negative : Tensor2) (scale tau alpha : ℚ) : Option Tensor2 :=
  optList (List.zipWith (fun p n => nagRow p n scale tau alpha) positive negative)

/-- Sequence length of a batched tensor (`t.shape[1]`; every sample has the
same length in a well-formed tensor). -/
def seqLen {α : Type} (t : List (List α)) : Nat :=
  match t with
  | [] => 0
  | s :: _ => s.length

/-- Feature dimension of a rank-3 tensor (`t.shape[2]`). -/
def featDim (t : Tensor3) : Nat :=
  match t with
  | [] => 0
  | s :: _ =>
    match s with
    | [] => 0
    | r :: _ => r.length

/-- Pad a sample to sequence length `L` with zero feature rows of width `D`. -/
def padSample (L D : Nat) (s : List (List ℚ)) : List (List ℚ) :=
  s ++ List.replicate (L - s.length) (List.replicate D 0)

/-- Modelled from the spec: `cat_context` lives in `utils.py`, which is not
among the provided sources.  Per §4.3: fail (precondition violation) when
the feature dimensions differ; otherwise equalise the sequence lengths —
zero-padding the shorter to `max L1 L2` when `trim_context` is false,
truncating the longer to `min L1 L2` when it is true — and concatenate
along the batch axis. -/
def cat_context (context nag_negative_context : Tensor3) (trim_context : Bool) :
    Option Tensor3 :=
  let d1 := featDim context
  let d2 := featDim nag_negative_context
  if d1 ≠ d2 then none
  else
    let l1 := seqLen context
    let l2 := seqLen nag_negative_context
    if trim_context then
      some (context.map (List.take (min l1 l2)) ++
        nag_negative_context.map (List.take (min l1 l2)))
    else
      some (context.map (padSample (max l1 l2) d1) ++
        nag_negative_context.map (padSample (max l1 l2) d1))

/-- Modelled from the spec: `check_nag_activation` lives in `utils.py`, which
is not among the provided sources.  Per §4.2: true iff negative conditioning
is present, and the current sigma is unavailable or strictly greater than the
`nag_sigma_end` cutoff, and the current conditioning batch matches the
designated positive-path conditioning. -/
def check_nag_activation (context : Tensor3) (sigma : Option ℚ)
    (positive_context : Tensor3) (nag_negative_context : Option Tensor3)
    (nag_sigma_end : ℚ) : Bool :=
  nag_negative_context.isSome
    && (match sigma with
        | none => true
        | some s => decide (nag_sigma_end < s))
    && decide (context = positive_context)

/-- Float16 values: either a finite rational or one of the non-finite values. -/
inductive F16 where
  | fin (q : ℚ)
  | nan
  | posInf
  | negInf
deriving DecidableEq

/-- Whether a float16 value is finite. -/
def F16.isFinite : F16 → Bool
  | .fin _ => true
  | _ => false

/-- torch.nan_to_num with the arguments used in `NAGFlux.forward_orig`
(`nan=0.0, posinf=65504, neginf=-65504`). -/
def nan_to_num (v : F16) : F16 :=
  match v with
  | .nan => .fin 0
  | .posInf => .fin 65504
  | .negInf => .fin ((-65504 : ℚ))
  | .fin q => .fin q

/-- Tensor dtypes relevant to the sanitization step. -/
inductive DType where
  | float16
  | float32
deriving DecidableEq

/-- Lines 94–95 of `flux/model.py`: after the double-block stack, when the
accumulated image tensor has float16 dtype, replace its non-finite entries. -/
def sanitize_img (dtype : DType) (img : List (List F16)) : List (List F16) :=
  if dtype = DType.float16 then img.map (List.map nan_to_num) else img

/-! ### Helper lemmas -/

theorem zipWith_left_eq {α β : Type} (f : α → β → α) (hf : ∀ a b, f a b = a) :
    ∀ (xs : List α) (ys : List β), xs.length = ys.length → List.zipWith f xs ys = xs := by
  intro xs
  induction xs with
  | nil => intro ys _; simp
  | cons x xs ih =>
    intro ys hlen
    cases ys with
    | nil => simp at hlen
    | cons y ys =>
      simp only [List.zipWith_cons_cons, hf]
      simp only [List.length_cons, Nat.add_right_cancel_iff] at hlen
      rw [ih ys hlen]

theorem map_eq_self {α : Type} (f : α → α) (hf : ∀ a, f a = a) (l : List α) :
    l.map f = l := by
  induction l with
  | nil => rfl
  | cons x xs ih => simp [hf, ih]

theorem l1norm_eq_zero_of_zero (p : List ℚ) (h : ∀ x ∈ p, x = 0) : l1norm p = 0 := by
  apply List.sum_eq_zero
  intro y hy
  rcases List.mem_map.mp hy with ⟨x, hx, rfl⟩
  rw [h x hx, abs_zero]

theorem nagRow_scale_one (p n : List ℚ) (tau : ℚ) (hlen : p.length = n.length)
    (htau : 1 ≤ tau) : nagRow p n 1 tau 1 = some p := by
  have hguid : List.zipWith (fun p n => p * 1 - n * ((1 : ℚ) - 1)) p n = p := by
    apply zipWith_left_eq _ _ _ _ hlen
    intro a b; ring
  have hblend : List.zipWith (fun g p => g * 1 + p * ((1 : ℚ) - 1)) p p = p := by
    apply zipWith_left_eq _ _ _ _ rfl
    intro a b; ring
  unfold nagRow
  simp only [hguid]
  by_cases hz : l1norm p = 0
  · simp only [hz, if_pos rfl]
    exact congrArg some hblend
  · rw [if_neg hz]
    rw [div_self hz]
    have h1 : pdiv tau 1 = some tau := by
      unfold pdiv
      norm_num
    rw [h1]
    simp only [min_eq_left htau]
    rw [map_eq_self _ (fun a => mul_one a) p]
    exact congrArg some hblend

/-- C2 (counterexample): with `tau = 1/2 > 0`, `nag` does not return `positive`
unchanged even though `scale = 1` and `alpha = 1`: the clamp factor
`min 1 (tau / r) = 1/2` rescales the row. -/
theorem nag_scale_one_tau_lt_one_counterexample :
    (0 : ℚ) < 1 / 2 ∧ nag [[1]] [[0]] 1 (1 / 2) 1 ≠ some [[1]] := by
  constructor
  · norm_num
  · norm_num [nag, nagRow, optList, l1norm, pdiv]

/-- C2 (amended): for same-shape tensors and `tau ≥ 1`,
`nag positive negative 1 tau 1` returns exactly `positive`: with `scale = 1`
the extrapolation term vanishes, the norm ratio is 1, and the clamp factor
`min 1 tau` equals 1. -/
theorem nag_scale_one_id (p n : Tensor2) (tau : ℚ)
    (hlen : p.length = n.length)
    (hrows : ∀ pr ∈ p.zip n, pr.1.length = pr.2.length)
    (htau : 1 ≤ tau) : nag p n 1 tau 1 = some p := by
  induction p generalizing n with
  | nil =>
    cases n with
    | nil => rfl
    | cons m ns => simp at hlen
  | cons x xs ih =>
    cases n with
    | nil => simp at hlen
    | cons m ns =>
      have hx : x.length = m.length := hrows (x, m) (by simp)
      have hxs : nag xs ns 1 tau 1 = some xs := by
        apply ih ns
        · simpa using hlen
        · intro pr hpr
          exact hrows pr (by simp [hpr])
      unfold nag at hxs ⊢
      simp only [List.zipWith_cons_cons, nagRow_scale_one x m tau hx htau, optList, hxs]

/-- Witness for the amended C2 theorem at a concrete input. -/
theorem nag_scale_one_id_witness :
    nag [[1, 2], [3, 4]] [[5, 6], [7, 8]] 1 (3 / 2) 1 = some [[1, 2], [3, 4]] :=
  nag_scale_one_id [[1, 2], [3, 4]] [[5, 6], [7, 8]] (3 / 2) (by decide)
    (by decide) (by norm_num)

/-- C6: when a feature row of `positive` is entirely zero, the guidance
computation for that row is fully defined (no division by zero, hence no
NaN or Inf entries): the zero-norm guard makes the clamp factor default
to 1 instead of dividing by the zero norm. -/
theorem nagRow_zero_row_safe (positive negative : List ℚ) (scale tau alpha : ℚ)
    (hz : ∀ x ∈ positive, x = 0) :
    (nagRow positive negative scale tau alpha).isSome = true := by
  unfold nagRow
  rw [if_pos (l1norm_eq_zero_of_zero positive hz)]
  rfl

/-- Witness for the zero-row safety theorem at a concrete input. -/
theorem nagRow_zero_row_safe_witness :
    (nagRow [0, 0] [1, 2] 2 (5 / 2) (1 / 2)).isSome = true :=
  nagRow_zero_row_safe [0, 0] [1, 2] 2 (5 / 2) (1 / 2) (by decide)

/-- C4: the activation predicate returns true iff negative conditioning is
present, and sigma is unavailable or strictly above the cutoff, and the
current conditioning batch matches the designated positive-path
conditioning. -/
theorem check_nag_activation_iff (context : Tensor3) (sigma : Option ℚ)
    (positive_context : Tensor3) (nag_negative_context : Option Tensor3)
    (nag_sigma_end : ℚ) :
    check_nag_activation context sigma positive_context nag_negative_context
        nag_sigma_end = true ↔
      ((∃ t, nag_negative_context = some t) ∧
        (sigma = none ∨ ∃ s, sigma = some s ∧ nag_sigma_end < s) ∧
        context = positive_context) := by
  cases nag_negative_context with
  | none => simp [check_nag_activation]
  | some t =>
    cases sigma with
    | none => simp [check_nag_activation]
    | some s =>
      simp [check_nag_activation]

/-- C7: with float16 dtype, the sanitization step of `NAGFlux.forward_orig`
leaves every entry finite, acts entrywise by `nan_to_num`, and `nan_to_num`
replaces NaN by 0, positive infinity by 65504 and negative infinity by
-65504; the operation is a total function (a local recovery, never an
error). -/
theorem sanitize_img_f16_finite (img : List (List F16)) :
    (∀ s ∈ sanitize_img DType.float16 img, ∀ v ∈ s, v.isFinite = true) ∧
    sanitize_img DType.float16 img = img.map (List.map nan_to_num) ∧
    nan_to_num F16.nan = F16.fin 0 ∧
    nan_to_num F16.posInf = F16.fin 65504 ∧
    nan_to_num F16.negInf = F16.fin (-65504) := by
  refine ⟨?_, by simp [sanitize_img], rfl, rfl, rfl⟩
  intro s hs v hv
  simp only [sanitize_img, if_pos rfl] at hs
  rcases List.mem_map.mp hs with ⟨s0, _, rfl⟩
  rcases List.mem_map.mp hv with ⟨v0, _, rfl⟩
  cases v0 <;> rfl

/-- Witness for the sanitization theorem at a concrete input. -/
theorem sanitize_img_f16_finite_witness :
    (∀ s ∈ sanitize_img DType.float16 [[F16.nan, F16.posInf], [F16.negInf, F16.fin 3]],
      ∀ v ∈ s, v.isFinite = true) ∧
    sanitize_img DType.float16 [[F16.nan, F16.posInf], [F16.negInf, F16.fin 3]] =
      [[F16.nan, F16.posInf], [F16.negInf, F16.fin 3]].map (List.map nan_to_num) ∧
    nan_to_num F16.nan = F16.fin 0 ∧
    nan_to_num F16.posInf = F16.fin 65504 ∧
    nan_to_num F16.negInf = F16.fin (-65504) :=
  sanitize_img_f16_finite [[F16.nan, F16.posInf], [F16.negInf, F16.fin 3]]

theorem featDim_of_shape (c : Tensor3) (L D : Nat) (hc : c ≠ [])
    (hL : 0 < L) (hs : ∀ s ∈ c, s.length = L ∧ ∀ r ∈ s, r.length = D) :
    featDim c = D := by
  cases c with
  | nil => exact absurd rfl hc
  | cons s t =>
    obtain ⟨hsl, hr⟩ := hs s (by simp)
    cases s with
    | nil => simp at hsl; omega
    | cons r rs => exact hr r (by simp)

theorem seqLen_of_shape (c : Tensor3) (L D : Nat) (hc : c ≠ [])
    (hs : ∀ s ∈ c, s.length = L ∧ ∀ r ∈ s, r.length = D) :
    seqLen c = L := by
  cases c with
  | nil => exact absurd rfl hc
  | cons s t => exact (hs s (by simp)).1

/-- C3: `cat_context` concatenates along the batch axis (output batch size is
the sum of the input batch sizes), equalises the sequence length to
`max L1 L2` by zero padding when `trim_context` is false and to `min L1 L2`
by truncation when it is true, keeps the feature dimension, and fails with
`none` (precondition violation) when the feature dimensions differ. -/
theorem cat_context_shape
    (context nag_negative_context mismatched : Tensor3)
    (B1 L1 B2 L2 D B3 L3 D3 : Nat)
    (h1B : context.length = B1)
    (h1 : ∀ s ∈ context, s.length = L1 ∧ ∀ r ∈ s, r.length = D)
    (h2B : nag_negative_context.length = B2)
    (h2 : ∀ s ∈ nag_negative_context, s.length = L2 ∧ ∀ r ∈ s, r.length = D)
    (hB1 : 0 < B1) (hL1 : 0 < L1) (hB2 : 0 < B2) (hL2 : 0 < L2)
    (h3B : mismatched.length = B3)
    (h3 : ∀ s ∈ mismatched, s.length = L3 ∧ ∀ r ∈ s, r.length = D3)
    (hB3 : 0 < B3) (hL3 : 0 < L3) (hD : D ≠ D3) :
    (∃ out, cat_context context nag_negative_context false = some out ∧
        out.length = B1 + B2 ∧
        ∀ s ∈ out, s.length = max L1 L2 ∧ ∀ r ∈ s, r.length = D) ∧
    (∃ out, cat_context context nag_negative_context true = some out ∧
        out.length = B1 + B2 ∧
        ∀ s ∈ out, s.length = min L1 L2 ∧ ∀ r ∈ s, r.length = D) ∧
    (∀ b : Bool, cat_context context mismatched b = none) := by
  have hc1 : context ≠ [] := by
    intro h; rw [h] at h1B; simp at h1B; omega
  have hc2 : nag_negative_context ≠ [] := by
    intro h; rw [h] at h2B; simp at h2B; omega
  have hc3 : mismatched ≠ [] := by
    intro h; rw [h] at h3B; simp at h3B; omega
  have hd1 : featDim context = D := featDim_of_shape context L1 D hc1 hL1 h1
  have hd2 : featDim nag_negative_context = D :=
    featDim_of_shape nag_negative_context L2 D hc2 hL2 h2
  have hd3 : featDim mismatched = D3 := featDim_of_shape mismatched L3 D3 hc3 hL3 h3
  have hs1 : seqLen context = L1 := seqLen_of_shape context L1 D hc1 h1
  have hs2 : seqLen nag_negative_context = L2 :=
    seqLen_of_shape nag_negative_context L2 D hc2 h2
  refine ⟨⟨context.map (padSample (max L1 L2) D) ++
      nag_negative_context.map (padSample (max L1 L2) D), ?_, ?_, ?_⟩,
    ⟨context.map (List.take (min L1 L2)) ++
      nag_negative_context.map (List.take (min L1 L2)), ?_, ?_, ?_⟩, ?_⟩
  · simp [cat_context, hd1, hd2, hs1, hs2]
  · simp [h1B, h2B]
  · intro s hs
    have key : ∀ (c : Tensor3) (L : Nat), (∀ s0 ∈ c, s0.length = L ∧ ∀ r ∈ s0, r.length = D) →
        L ≤ max L1 L2 → s ∈ c.map (padSample (max L1 L2) D) →
        s.length = max L1 L2 ∧ ∀ r ∈ s, r.length = D := by
      intro c L hc hle hmem
      rcases List.mem_map.mp hmem with ⟨s0, hs0, rfl⟩
      obtain ⟨hs0len, hs0rows⟩ := hc s0 hs0
      constructor
      · simp [padSample, hs0len]
        omega
      · intro r hr
        rcases List.mem_append.mp hr with hr1 | hr2
        · exact hs0rows r hr1
        · rw [List.eq_of_mem_replicate hr2]
          simp
    rcases List.mem_append.mp hs with hmem | hmem
    · exact key context L1 h1 (le_max_left L1 L2) hmem
    · exact key nag_negative_context L2 h2 (le_max_right L1 L2) hmem
  · simp [cat_context, hd1, hd2, hs1, hs2]
  · simp [h1B, h2B]
  · intro s hs
    have key : ∀ (c : Tensor3) (L : Nat), (∀ s0 ∈ c, s0.length = L ∧ ∀ r ∈ s0, r.length = D) →
        min L1 L2 ≤ L → s ∈ c.map (List.take (min L1 L2)) →
        s.length = min L1 L2 ∧ ∀ r ∈ s, r.length = D := by
      intro c L hc hle hmem
      rcases List.mem_map.mp hmem with ⟨s0, hs0, rfl⟩
      obtain ⟨hs0len, hs0rows⟩ := hc s0 hs0
      constructor
      · rw [List.length_take, hs0len]
        omega
      · intro r hr
        exact hs0rows r (List.mem_of_mem_take hr)
    rcases List.mem_append.mp hs with hmem | hmem
    · exact key context L1 h1 (min_le_left L1 L2) hmem
    · exact key nag_negative_context L2 h2 (min_le_right L1 L2) hmem
  · intro b
    simp [cat_context, hd1, hd3, hD]

/-- Witness for the `cat_context` shape theorem at concrete inputs. -/
theorem cat_context_shape_witness :
    (∃ out, cat_context [[[1], [2]]] [[[3]], [[4]]] false = some out ∧
        out.length = 1 + 2 ∧
        ∀ s ∈ out, s.length = max 2 1 ∧ ∀ r ∈ s, r.length = 1) ∧
    (∃ out, cat_context [[[1], [2]]] [[[3]], [[4]]] true = some out ∧
        out.length = 1 + 2 ∧
        ∀ s ∈ out, s.length = min 2 1 ∧ ∀ r ∈ s, r.length = 1) ∧
    (∀ b : Bool, cat_context [[[1], [2]]] [[[5, 6]]] b = none) :=
  cat_context_shape [[[1], [2]]] [[[3]], [[4]]] [[[5, 6]]] 1 2 2 1 1 1 1 2
    rfl (by decide) rfl (by decide) (by decide) (by decide) (by decide) (by decide)
    rfl (by decide) (by decide) (by decide) (by decide)

/-! ### Joint-family guided block mixing (`_nag_block_mixing`, sd3/mmdit.py)

The batch axis is explicit (`List` of per-sample values); the per-sample
contents (token matrices, modulation vectors, pre-attention intermediates)
stay abstract, since the host block objects and the attention kernel are
opaque collaborators with shape contracts.  `nag` acts elementwise per
sample, so its batch-level application is the `zipWith` of a per-sample
function. -/

def zipWith3 {α β γ δ : Type} (f : α → β → γ → δ) :
    List α → List β → List γ → List δ
  | x :: xs, y :: ys, z :: zs => f x y z :: zipWith3 f xs ys zs
  | _, _, _ => []

/-- Per-sample operations of the two sub-blocks and the attention kernel used
by `_nag_block_mixing`.  `qkv` triples and attention outputs are abstract
per-sample values of type `τ`, modulation vectors have type `γ` and the
pre-attention intermediates have type `ι`. -/
structure JointOps (τ γ ι : Type) where
  ctxPreAttn : τ → γ → (τ × τ × τ) × ι
  xPreAttn : τ → γ → (τ × τ × τ) × ι
  xPreAttnX : τ → γ → (τ × τ × τ) × (τ × τ × τ) × ι
  xBlockSelfAttn : Bool
  ctxPreOnly : Bool
  seqCat : τ → τ → τ
  attn : τ × τ × τ → τ
  splitAtCtx : τ → τ × τ
  nagSample : ℚ → ℚ → ℚ → τ → τ → τ
  attn2 : τ × τ × τ → τ
  ctxPostAttn : τ → ι → τ
  xPostAttn : τ → ι → τ
  xPostAttnX : τ → τ → ι → τ

/-- Embedding of `_nag_block_mixing` (sd3/mmdit.py, lines 18–74).
`origin_bsz = len(context) - len(x)` must be nonzero (the Python `assert`,
modelled as returning `none` before any attention computation).  The image
QKV batch is expanded by duplicating its last `origin_bsz` rows, one joint
attention runs over context-QKV concatenated with the expanded image QKV
along the sequence axis, the output splits back into context and image
segments, guidance replaces the trailing positive/negative image pair by
the single guided segment, and each sub-block's post-attention projection
runs independently (the context one skipped when `pre_only`). -/
def nag_block_mixing {τ γ ι : Type} (ops : JointOps τ γ ι)
    (context x : List τ) (c : List γ)
    (nag_scale nag_tau nag_alpha : ℚ) : Option (Option (List τ) × List τ) :=
  let origin_bsz : Int := (context.length : Int) - (x.length : Int)
  if origin_bsz = 0 then none
  else
    let o := origin_bsz.toNat
    let ctxPre := List.zipWith ops.ctxPreAttn context c
    let context_qkv := ctxPre.map (fun p => p.1)
    let context_intermediates := ctxPre.map (fun p => p.2)
    let xPreX := List.zipWith ops.xPreAttnX x (pyDropLast o c)
    let xPreN := List.zipWith ops.xPreAttn x (pyDropLast o c)
    let x_qkv :=
      if ops.xBlockSelfAttn then xPreX.map (fun p => p.1)
      else xPreN.map (fun p => p.1)
    let x_qkv2 := if ops.xBlockSelfAttn then xPreX.map (fun p => p.2.1) else []
    let x_intermediates :=
      if ops.xBlockSelfAttn then xPreX.map (fun p => p.2.2)
      else xPreN.map (fun p => p.2)
    let x_qkv_expanded := x_qkv ++ pyTakeLast o x_qkv
    let qkv := List.zipWith (fun cq xq =>
        (ops.seqCat cq.1 xq.1, ops.seqCat cq.2.1 xq.2.1, ops.seqCat cq.2.2 xq.2.2))
      context_qkv x_qkv_expanded
    let attn_out := qkv.map ops.attn
    let split := attn_out.map ops.splitAtCtx
    let context_attn := split.map (fun p => p.1)
    let x_attn := split.map (fun p => p.2)
    let x_attn_negative := pyTakeLast o x_attn
    let x_attn_positive := pyTakeLast o (pyDropLast o x_attn)
    let x_attn_guidance :=
      List.zipWith (ops.nagSample nag_scale nag_tau nag_alpha)
        x_attn_positive x_attn_negative
    let x_attn_mixed := pyDropLast (2 * o) x_attn ++ x_attn_guidance
    let context_out :=
      if ops.ctxPreOnly then none
      else some (List.zipWith ops.ctxPostAttn context_attn context_intermediates)
    let x_out :=
      if ops.xBlockSelfAttn then
        let attn2_out := x_qkv2.map ops.attn2
        zipWith3 ops.xPostAttnX x_attn_mixed attn2_out x_intermediates
      else
        List.zipWith ops.xPostAttn x_attn_mixed x_intermediates
    some (context_out, x_out)

/-- Trivial concrete instantiation of the per-sample operations, used by the
closed witnesses. -/
def unitJointOps : JointOps Unit Unit Unit where
  ctxPreAttn := fun _ _ => (((), (), ()), ())
  xPreAttn := fun _ _ => (((), (), ()), ())
  xPreAttnX := fun _ _ => (((), (), ()), ((), (), ()), ())
  xBlockSelfAttn := false
  ctxPreOnly := false
  seqCat := fun _ _ => ()
  attn := fun _ => ()
  splitAtCtx := fun _ => ((), ())
  nagSample := fun _ _ _ _ _ => ()
  attn2 := fun _ => ()
  ctxPostAttn := fun _ _ => ()
  xPostAttn := fun _ _ => ()
  xPostAttnX := fun _ _ _ => ()

theorem pyTakeLast_length {α : Type} (o : Nat) (xs : List α) (h0 : 0 < o)
    (h : o ≤ xs.length) : (pyTakeLast o xs).length = o := by
  unfold pyTakeLast
  rw [if_neg (Nat.pos_iff_ne_zero.mp h0)]
  rw [List.length_drop]
  omega

theorem pyDropLast_length {α : Type} (o : Nat) (xs : List α) (h0 : 0 < o) :
    (pyDropLast o xs).length = xs.length - o := by
  unfold pyDropLast
  rw [if_neg (Nat.pos_iff_ne_zero.mp h0)]
  rw [List.length_take]
  omega

theorem zipWith3_length {α β γ δ : Type} (f : α → β → γ → δ) :
    ∀ (xs : List α) (ys : List β) (zs : List γ),
      (zipWith3 f xs ys zs).length = min xs.length (min ys.length zs.length) := by
  intro xs
  induction xs with
  | nil => intro ys zs; simp [zipWith3]
  | cons x xs ih =>
    intro ys zs
    cases ys with
    | nil => simp [zipWith3]
    | cons y ys =>
      cases zs with
      | nil => simp [zipWith3]
      | cons z zs =>
        simp [zipWith3, ih]
        omega

/-- C5: when the context batch size equals the image batch size
(`origin_bsz == 0`), `_nag_block_mixing` fails immediately (the `assert`
at lines 28–29 of sd3/mmdit.py), before any attention computation and
with no partial result. -/
theorem nag_block_mixing_zero_origin_fails {τ γ ι : Type} (ops : JointOps τ γ ι)
    (context x : List τ) (c : List γ) (nag_scale nag_tau nag_alpha : ℚ)
    (h : context.length = x.length) :
    nag_block_mixing ops context x c nag_scale nag_tau nag_alpha = none := by
  unfold nag_block_mixing
  rw [if_pos]
  omega

/-- Witness for the `origin_bsz == 0` failure theorem at a concrete input. -/
theorem nag_block_mixing_zero_origin_fails_witness :
    nag_block_mixing unitJointOps [()] [()] [()] 3 (5 / 2) (1 / 2) = none :=
  nag_block_mixing_zero_origin_fails unitJointOps [()] [()] [()] 3 (5 / 2) (1 / 2) rfl


theorem pyTakeLast_len {α : Type} (o : Nat) (xs : List α) :
    (pyTakeLast o xs).length = if o = 0 then xs.length else xs.length - (xs.length - o) := by
  unfold pyTakeLast
  split
  · rfl
  · rw [List.length_drop]

theorem pyDropLast_len {α : Type} (o : Nat) (xs : List α) :
    (pyDropLast o xs).length = if o = 0 then 0 else xs.length - o := by
  unfold pyDropLast
  split
  · rfl
  · rw [List.length_take]
    omega

/-- C9: with image batch size `N` and context batch size `N + o` (`o > 0`),
the image tensor returned by `_nag_block_mixing` has batch size exactly `N`:
the image QKV batch is expanded to `N + o` before attention, and after
attention the trailing negative segment together with its paired positive
segment is replaced by the single `o`-row guided result. -/
theorem nag_block_mixing_batch {τ γ ι : Type} (ops : JointOps τ γ ι)
    (context x : List τ) (c : List γ) (nag_scale nag_tau nag_alpha : ℚ)
    (N o : Nat) (hx : x.length = N) (hctx : context.length = N + o)
    (ho : 0 < o) (hoN : o ≤ N) (hc : c.length = N + o) :
    (nag_block_mixing ops context x c nag_scale nag_tau nag_alpha).map
      (fun r => r.2.length) = some N := by
  have hne : ((context.length : Int) - (x.length : Int)) ≠ 0 := by
    rw [hx, hctx]; omega
  have hto : ((context.length : Int) - (x.length : Int)).toNat = o := by
    rw [hx, hctx]; omega
  have ho0 : o ≠ 0 := by omega
  have h2o0 : 2 * o ≠ 0 := by omega
  unfold nag_block_mixing
  rw [if_neg hne, Option.map_some', Option.some_inj, hto]
  by_cases hsa : ops.xBlockSelfAttn = true
  · simp only [hsa, if_true, List.map_map, zipWith3_length,
      pyTakeLast_len, pyDropLast_len, List.length_append, List.length_zipWith,
      List.length_map, if_neg ho0, if_neg h2o0, hx, hctx, hc]
    omega
  · simp only [hsa, Bool.false_eq_true, if_false, List.map_map,
      pyTakeLast_len, pyDropLast_len, List.length_append, List.length_zipWith,
      List.length_map, if_neg ho0, if_neg h2o0, hx, hctx, hc]
    omega

/-- Witness for the batch-size theorem at a concrete input. -/
theorem nag_block_mixing_batch_witness :
    (nag_block_mixing unitJointOps [(), ()] [()] [(), ()] 3 (5 / 2) (1 / 2)).map
      (fun r => r.2.length) = some 1 :=
  nag_block_mixing_batch unitJointOps [(), ()] [()] [(), ()] 3 (5 / 2) (1 / 2) 1 1
    rfl rfl (by decide) (by decide) rfl

/-- C10: guidance only modifies the image-stream attention output.  The
returned context tensor does not depend on the scale, tau and alpha guidance
parameters, and it is `none` exactly when the context block is `pre_only`. -/
theorem nag_block_mixing_ctx_frame {τ γ ι : Type} (ops : JointOps τ γ ι)
    (context x : List τ) (c : List γ) (s1 t1 a1 s2 t2 a2 : ℚ)
    (h : context.length ≠ x.length) :
    (nag_block_mixing ops context x c s1 t1 a1).map (fun r => r.1) =
      (nag_block_mixing ops context x c s2 t2 a2).map (fun r => r.1) ∧
    (nag_block_mixing ops context x c s1 t1 a1).map (fun r => r.1.isNone) =
      some ops.ctxPreOnly := by
  have hne : ((context.length : Int) - (x.length : Int)) ≠ 0 := by omega
  constructor
  · unfold nag_block_mixing
    rw [if_neg hne, if_neg hne]
    rfl
  · unfold nag_block_mixing
    rw [if_neg hne, Option.map_some', Option.some_inj]
    by_cases hpre : ops.ctxPreOnly = true
    · simp [hpre]
    · simp [hpre]

/-- Witness for the context frame theorem at a concrete input. -/
theorem nag_block_mixing_ctx_frame_witness :
    (nag_block_mixing unitJointOps [(), ()] [()] [(), ()] 3 (5 / 2) (1 / 2)).map
      (fun r => r.1) =
      (nag_block_mixing unitJointOps [(), ()] [()] [(), ()] 7 2 (3 / 4)).map
        (fun r => r.1) ∧
    (nag_block_mixing unitJointOps [(), ()] [()] [(), ()] 3 (5 / 2) (1 / 2)).map
      (fun r => r.1.isNone) = some unitJointOps.ctxPreOnly :=
  nag_block_mixing_ctx_frame unitJointOps [(), ()] [()] [(), ()] 3 (5 / 2) (1 / 2)
    7 2 (3 / 4) (by decide)

/-! ### Method rebinding: enable / disable guidance

The Python code toggles guidance by rebinding bound methods on the live
model and block objects (`MethodType(...)` assignments in `set_nag_flux`,
`set_origin_flux`, `NAGFlux.forward`, `set_nag_sd3`, `set_origin_sd3`).
The embedding records, per rebindable method, which behavior is currently
bound; the numeric content of the baseline and the guided behaviors is
opaque host computation, supplied as dispatch functions.  Baseline
behaviors read only the weights, never the per-block guidance scalars. -/

/-- Which implementation a rebindable method currently points at. -/
inductive Behavior where
  | baseline
  | nag
deriving DecidableEq

/-- One flux transformer block object: weights, the bound `forward`, and the
`nag_scale` / `nag_tau` / `nag_alpha` attributes that `set_nag_flux` sets. -/
structure FluxBlockState (W : Type) where
  weights : W
  fwd : Behavior
  nag_scale : ℚ
  nag_tau : ℚ
  nag_alpha : ℚ

/-- The flux model object: weights, the bound `forward` (with the guidance
configuration that `set_nag_flux` partially applies onto it), the bound
`forward_orig`, and the two block lists. -/
structure FluxModelState (W C : Type) where
  weights : W
  fwd : Behavior
  fwdCfg : Option C
  fwdOrig : Behavior
  double_blocks : List (FluxBlockState W)
  single_blocks : List (FluxBlockState W)

/-- `set_nag_flux` (flux/model.py, lines 218–241): rebind `model.forward` to
the guided forward with the guidance configuration partially applied, and
set the guidance scalars on every block.  Neither `forward_orig` nor the
block `forward` bindings are touched here (those are rebound per call
inside `NAGFlux.forward`). -/
def set_nag_flux {W C : Type} (m : FluxModelState W C) (cfg : C)
    (nag_scale nag_tau nag_alpha : ℚ) : FluxModelState W C :=
  { m with
    fwd := Behavior.nag
    fwdCfg := some cfg
    double_blocks := m.double_blocks.map (fun b =>
      { b with nag_scale := nag_scale, nag_tau := nag_tau, nag_alpha := nag_alpha })
    single_blocks := m.single_blocks.map (fun b =>
      { b with nag_scale := nag_scale, nag_tau := nag_tau, nag_alpha := nag_alpha }) }

/-- `set_origin_flux` (flux/model.py, lines 244–250): rebind `model.forward`
and `model.forward_orig` to the baseline `Flux` methods (discarding the
partially applied configuration) and every block's `forward` to the baseline
block method.  The guidance scalars on the blocks are left as they are. -/
def set_origin_flux {W C : Type} (m : FluxModelState W C) : FluxModelState W C :=
  { m with
    fwd := Behavior.baseline
    fwdCfg := none
    fwdOrig := Behavior.baseline
    double_blocks := m.double_blocks.map (fun b => { b with fwd := Behavior.baseline })
    single_blocks := m.single_blocks.map (fun b => { b with fwd := Behavior.baseline }) }

/-- Opaque host computations the dispatch selects between.  `baseBlock`,
`baseOrig` and `baseForward` are the pristine `Flux` behaviors and read only
weights (and, transitively, the currently bound callees); the `nag…` fields
are the guided behaviors. -/
structure FluxImpl (W C I O : Type) where
  baseBlock : W → I → I
  nagBlock : ℚ → ℚ → ℚ → W → I → I
  baseOrig : W → List (I → I) → List (I → I) → I → I
  nagOrig : W → List (I → I) → List (I → I) → I → I
  baseForward : W → (I → I) → I → O
  nagForward : Option C → W → (I → I) → I → O

/-- Dispatch a block's bound `forward`. -/
def fluxBlockFwd {W C I O : Type} (impl : FluxImpl W C I O)
    (b : FluxBlockState W) : I → I :=
  match b.fwd with
  | Behavior.baseline => impl.baseBlock b.weights
  | Behavior.nag => impl.nagBlock b.nag_scale b.nag_tau b.nag_alpha b.weights

/-- Dispatch the model's bound `forward_orig` (which runs the currently
bound block forwards). -/
def fluxOrigFwd {W C I O : Type} (impl : FluxImpl W C I O)
    (m : FluxModelState W C) : I → I :=
  match m.fwdOrig with
  | Behavior.baseline =>
    impl.baseOrig m.weights (m.double_blocks.map (fluxBlockFwd impl))
      (m.single_blocks.map (fluxBlockFwd impl))
  | Behavior.nag =>
    impl.nagOrig m.weights (m.double_blocks.map (fluxBlockFwd impl))
      (m.single_blocks.map (fluxBlockFwd impl))

/-- Dispatch the model's bound `forward`. -/
def fluxForward {W C I O : Type} (impl : FluxImpl W C I O)
    (m : FluxModelState W C) (x : I) : O :=
  match m.fwd with
  | Behavior.baseline => impl.baseForward m.weights (fluxOrigFwd impl m) x
  | Behavior.nag => impl.nagForward m.fwdCfg m.weights (fluxOrigFwd impl m) x

/-- One sd3 joint block object: weights plus the bound `forward`. -/
structure JointBlockState (W : Type) where
  weights : W
  fwd : Behavior

/-- The sd3 model object: weights, model-level guidance scalars, the bound
`forward` (with its partially applied configuration), the bound
`forward_core_with_concat`, and the joint block list. -/
structure SD3ModelState (W C : Type) where
  weights : W
  nag_scale : ℚ
  nag_tau : ℚ
  nag_alpha : ℚ
  fwd : Behavior
  fwdCfg : Option C
  fwdCore : Behavior
  joint_blocks : List (JointBlockState W)

/-- `set_nag_sd3` (sd3/mmdit.py, lines 217–235): set the model-level guidance
scalars and rebind `model.forward` to the guided forward with the guidance
configuration partially applied.  `forward_core_with_concat` and the block
bindings are not touched here (rebound per call inside the guided forward). -/
def set_nag_sd3 {W C : Type} (m : SD3ModelState W C) (cfg : C)
    (nag_scale nag_tau nag_alpha : ℚ) : SD3ModelState W C :=
  { m with
    nag_scale := nag_scale
    nag_tau := nag_tau
    nag_alpha := nag_alpha
    fwd := Behavior.nag
    fwdCfg := some cfg }

/-- `set_origin_sd3` (sd3/mmdit.py, lines 238–242): rebind `model.forward`,
`model.forward_core_with_concat` and every joint block's `forward` to the
baseline methods.  The model-level guidance scalars are left as they are. -/
def set_origin_sd3 {W C : Type} (m : SD3ModelState W C) : SD3ModelState W C :=
  { m with
    fwd := Behavior.baseline
    fwdCfg := none
    fwdCore := Behavior.baseline
    joint_blocks := m.joint_blocks.map (fun b => { b with fwd := Behavior.baseline }) }

/-- Opaque host computations for the sd3 family. -/
structure SD3Impl (W C I O : Type) where
  baseBlock : W → I → I
  nagBlock : ℚ → ℚ → ℚ → W → I → I
  baseCore : W → List (I → I) → I → I
  nagCore : W → List (I → I) → I → I
  baseForward : W → (I → I) → I → O
  nagForward : Option C → W → (I → I) → I → O

/-- Dispatch a joint block's bound `forward` (the guided variant reads the
model-level guidance scalars). -/
def sd3BlockFwd {W C I O : Type} (impl : SD3Impl W C I O)
    (nag_scale nag_tau nag_alpha : ℚ) (b : JointBlockState W) : I → I :=
  match b.fwd with
  | Behavior.baseline => impl.baseBlock b.weights
  | Behavior.nag => impl.nagBlock nag_scale nag_tau nag_alpha b.weights

/-- Dispatch the model's bound `forward_core_with_concat`. -/
def sd3CoreFwd {W C I O : Type} (impl : SD3Impl W C I O)
    (m : SD3ModelState W C) : I → I :=
  match m.fwdCore with
  | Behavior.baseline =>
    impl.baseCore m.weights
      (m.joint_blocks.map (sd3BlockFwd impl m.nag_scale m.nag_tau m.nag_alpha))
  | Behavior.nag =>
    impl.nagCore m.weights
      (m.joint_blocks.map (sd3BlockFwd impl m.nag_scale m.nag_tau m.nag_alpha))

/-- Dispatch the sd3 model's bound `forward`. -/
def sd3Forward {W C I O : Type} (impl : SD3Impl W C I O)
    (m : SD3ModelState W C) (x : I) : O :=
  match m.fwd with
  | Behavior.baseline => impl.baseForward m.weights (sd3CoreFwd impl m) x
  | Behavior.nag => impl.nagForward m.fwdCfg m.weights (sd3CoreFwd impl m) x

/-- C8: after enabling guidance (`set_nag_flux` / `set_nag_sd3`) and then
disabling it (`set_origin_flux` / `set_origin_sd3`), a forward call on a
pristine-baseline model produces output identical to the pristine model's:
the disable operation restores the original `forward`,
`forward_orig` / `forward_core_with_concat`, and every block's `forward`,
and the baseline behaviors never read the leftover guidance scalars. -/
theorem set_origin_round_trip {W C I O W2 C2 I2 O2 : Type}
    (impl : FluxImpl W C I O) (m : FluxModelState W C) (cfg : C)
    (s t a : ℚ) (x : I)
    (impl2 : SD3Impl W2 C2 I2 O2) (m2 : SD3ModelState W2 C2) (cfg2 : C2)
    (s2 t2 a2 : ℚ) (y : I2)
    (hfwd : m.fwd = Behavior.baseline) (horig : m.fwdOrig = Behavior.baseline)
    (hdb : ∀ b ∈ m.double_blocks, b.fwd = Behavior.baseline)
    (hsb : ∀ b ∈ m.single_blocks, b.fwd = Behavior.baseline)
    (h2fwd : m2.fwd = Behavior.baseline) (h2core : m2.fwdCore = Behavior.baseline)
    (h2b : ∀ b ∈ m2.joint_blocks, b.fwd = Behavior.baseline) :
    fluxForward impl (set_origin_flux (set_nag_flux m cfg s t a)) x =
      fluxForward impl m x ∧
    sd3Forward impl2 (set_origin_sd3 (set_nag_sd3 m2 cfg2 s2 t2 a2)) y =
      sd3Forward impl2 m2 y := by
  constructor
  · have hmapd :
        ((m.double_blocks.map (fun b =>
            { b with nag_scale := s, nag_tau := t, nag_alpha := a })).map
          (fun b => { b with fwd := Behavior.baseline })).map (fluxBlockFwd impl) =
          m.double_blocks.map (fluxBlockFwd impl) := by
      simp only [List.map_map]
      apply List.map_congr_left
      intro b hb
      simp [Function.comp, fluxBlockFwd, hdb b hb]
    have hmaps :
        ((m.single_blocks.map (fun b =>
            { b with nag_scale := s, nag_tau := t, nag_alpha := a })).map
          (fun b => { b with fwd := Behavior.baseline })).map (fluxBlockFwd impl) =
          m.single_blocks.map (fluxBlockFwd impl) := by
      simp only [List.map_map]
      apply List.map_congr_left
      intro b hb
      simp [Function.comp, fluxBlockFwd, hsb b hb]
    simp only [set_nag_flux, set_origin_flux, fluxForward, fluxOrigFwd, hfwd, horig,
      hmapd, hmaps]
  · simp only [set_nag_sd3, set_origin_sd3, sd3Forward, sd3CoreFwd, h2fwd, h2core]
    rw [show ((m2.joint_blocks.map (fun b => { b with fwd := Behavior.baseline })).map
        (sd3BlockFwd impl2 s2 t2 a2)) =
        m2.joint_blocks.map (sd3BlockFwd impl2 s2 t2 a2) from by
      simp only [List.map_map]
      apply List.map_congr_left
      intro b hb
      simp [Function.comp, sd3BlockFwd, h2b b hb]]
    rw [List.map_congr_left (fun b hb => by
      simp [sd3BlockFwd, h2b b hb] :
      ∀ b ∈ m2.joint_blocks, sd3BlockFwd impl2 s2 t2 a2 b =
        sd3BlockFwd impl2 m2.nag_scale m2.nag_tau m2.nag_alpha b)]

/-- Trivial concrete flux dispatch functions, used by the closed witness. -/
def unitFluxImpl : FluxImpl Unit Unit Unit Unit where
  baseBlock := fun _ x => x
  nagBlock := fun _ _ _ _ x => x
  baseOrig := fun _ _ _ x => x
  nagOrig := fun _ _ _ x => x
  baseForward := fun _ _ x => x
  nagForward := fun _ _ _ x => x

/-- Trivial concrete sd3 dispatch functions, used by the closed witness. -/
def unitSD3Impl : SD3Impl Unit Unit Unit Unit where
  baseBlock := fun _ x => x
  nagBlock := fun _ _ _ _ x => x
  baseCore := fun _ _ x => x
  nagCore := fun _ _ x => x
  baseForward := fun _ _ x => x
  nagForward := fun _ _ _ x => x

/-- Pristine baseline flux model with one block of each kind. -/
def pristineFluxModel : FluxModelState Unit Unit where
  weights := ()
  fwd := Behavior.baseline
  fwdCfg := none
  fwdOrig := Behavior.baseline
  double_blocks := [⟨(), Behavior.baseline, 1, 5 / 2, 1 / 4⟩]
  single_blocks := [⟨(), Behavior.baseline, 1, 5 / 2, 1 / 4⟩]

/-- Pristine baseline sd3 model with one joint block. -/
def pristineSD3Model : SD3ModelState Unit Unit where
  weights := ()
  nag_scale := 1
  nag_tau := 5 / 2
  nag_alpha := 1 / 4
  fwd := Behavior.baseline
  fwdCfg := none
  fwdCore := Behavior.baseline
  joint_blocks := [⟨(), Behavior.baseline⟩]

/-- Witness for the disable-guidance round trip at concrete models. -/
theorem set_origin_round_trip_witness :
    fluxForward unitFluxImpl
        (set_origin_flux (set_nag_flux pristineFluxModel () 11 (5 / 2) (1 / 2))) () =
      fluxForward unitFluxImpl pristineFluxModel () ∧
    sd3Forward unitSD3Impl
        (set_origin_sd3 (set_nag_sd3 pristineSD3Model () 11 (5 / 2) (1 / 2))) () =
      sd3Forward unitSD3Impl pristineSD3Model () :=
  set_origin_round_trip unitFluxImpl pristineFluxModel () 11 (5 / 2) (1 / 2) ()
    unitSD3Impl pristineSD3Model () 11 (5 / 2) (1 / 2) ()
    rfl rfl (by simp [pristineFluxModel]) (by simp [pristineFluxModel])
    rfl rfl (by simp [pristineSD3Model])

/-! ### Dual-stream guided forward pass (`NAGFlux.forward_orig`, flux/model.py)

The batch axis and the per-sample token sequences are explicit
(`List (List φ)`, tokens `φ` abstract); modulation vectors (`vec`) and
positional encodings (`pe`) are abstract per-sample values.  The double
and single block stacks, the embedding layers and the final layer are
opaque collaborators, supplied as functions with shape contracts stated
as hypotheses of the theorems. -/

/-- Opaque per-call collaborators of `NAGFlux.forward_orig`.  A double block
maps (img, txt, vec, pe) to (img, txt); a single block maps the fused
stream; `sanitizeTok` is the per-token float16 sanitization; `finalTok` is
the per-token final layer (modulated by the sample's `vec` entry). -/
structure FluxOrigOps (φ υ π φ2 : Type) where
  dblBlocks : List (List (List φ) → List (List φ) → List υ → List π →
    List (List φ) × List (List φ))
  sglBlocks : List (List (List φ) → List υ → List π → List (List φ))
  dtypeF16 : Bool
  sanitizeTok : φ → φ
  finalTok : υ → φ → φ2

/-- Embedding of `NAGFlux.forward_orig` (flux/model.py, lines 48–131) after
the input embeddings (`img_in`, `time_in`, `vector_in`, `txt_in`,
`pe_embedder` are shape-preserving opaque collaborators, so `img`, `txt`,
`vec0`, `pe0` enter post-embedding): compute
`origin_bsz = len(txt) - len(img)`, expand `vec` by its last `origin_bsz`
rows (line 49), run the double block stack (lines 61–85), sanitize under
float16 (lines 94–95), expand `pe` and `img` by their last `origin_bsz`
rows (lines 97–98), fuse `txt` before `img` along the sequence axis
(line 99), run the single block stack (lines 101–118), strip the trailing
`origin_bsz` batch rows (line 127) and the text-token prefix (line 128),
and apply the final layer with `vec[:-origin_bsz]` (line 130). -/
def flux_forward_orig_core {φ υ π φ2 : Type} (ops : FluxOrigOps φ υ π φ2)
    (img txt : List (List φ)) (vec0 : List υ) (pe0 : List π) : List (List φ2) :=
  let origin_bsz := txt.length - img.length
  let vec := vec0 ++ pyTakeLast origin_bsz vec0
  let st := ops.dblBlocks.foldl (fun p blk => blk p.1 p.2 vec pe0) (img, txt)
  let img1 := st.1
  let txt1 := st.2
  let img2 := if ops.dtypeF16 then img1.map (List.map ops.sanitizeTok) else img1
  let pe := pe0 ++ pyTakeLast origin_bsz pe0
  let img3 := img2 ++ pyTakeLast origin_bsz img2
  let img4 := List.zipWith (fun t i => t ++ i) txt1 img3
  let img5 := ops.sglBlocks.foldl (fun z blk => blk z vec pe) img4
  let img6 := pyDropLast origin_bsz img5
  let img7 := img6.map (List.drop (seqLen txt1))
  List.zipWith (fun v s => s.map (ops.finalTok v)) (pyDropLast origin_bsz vec) img7

/-- Embedding of the tail of `NAGFlux.forward` (flux/model.py, lines 212–214):
run `forward_orig` and keep only the first `img_tokens` sequence positions
of the output. -/
def flux_forward_out {φ υ π φ2 : Type} (ops : FluxOrigOps φ υ π φ2)
    (img txt : List (List φ)) (vec0 : List υ) (pe0 : List π)
    (img_tokens : Nat) : List (List φ2) :=
  (flux_forward_orig_core ops img txt vec0 pe0).map (List.take img_tokens)

/-- Modelled from the spec: the output shape of a baseline (non-guided) Flux
forward call is not computed by code under the sources (`Flux.forward_orig`
is an external collaborator); spec §8.7 states it is `(B, T, D)` for batch
size `B` and latent token count `T`.  Shapes are recorded as (batch size,
per-sample sequence lengths). -/
def baselineFluxOutShape (B T : Nat) : Nat × List Nat := (B, List.replicate B T)

/-- Shape of a batched tensor: batch size and per-sample sequence lengths. -/
def batchShape {φ : Type} (t : List (List φ)) : Nat × List Nat :=
  (t.length, t.map List.length)

theorem pyTakeLast_map {α β : Type} (f : α → β) (o : Nat) (xs : List α) :
    (pyTakeLast o xs).map f = pyTakeLast o (xs.map f) := by
  unfold pyTakeLast
  split
  · simp [*]
  · rw [List.map_drop, List.length_map]

theorem pyDropLast_map {α β : Type} (f : α → β) (o : Nat) (xs : List α) :
    (pyDropLast o xs).map f = pyDropLast o (xs.map f) := by
  unfold pyDropLast
  split
  · simp [*]
  · rw [List.map_take, List.length_map]

theorem pyTakeLast_replicate {α : Type} (o n : Nat) (a : α) (ho : o ≠ 0)
    (hon : o ≤ n) : pyTakeLast o (List.replicate n a) = List.replicate o a := by
  unfold pyTakeLast
  rw [if_neg ho, List.length_replicate, List.drop_replicate]
  congr 1
  omega

theorem pyDropLast_replicate {α : Type} (o n : Nat) (a : α) (ho : o ≠ 0) :
    pyDropLast o (List.replicate n a) = List.replicate (n - o) a := by
  unfold pyDropLast
  rw [if_neg ho, List.length_replicate, List.take_replicate]
  congr 1
  omega

theorem map_length_map_map {φ : Type} (f : φ → φ) (l : List (List φ)) :
    (l.map (List.map f)).map List.length = l.map List.length := by
  rw [List.map_map]
  apply List.map_congr_left
  intro s _
  simp

theorem map_length_zipWith_append {φ : Type} :
    ∀ (xs ys : List (List φ)) (n a b : Nat),
      xs.map List.length = List.replicate n a →
      ys.map List.length = List.replicate n b →
      (List.zipWith (fun t i => t ++ i) xs ys).map List.length =
        List.replicate n (a + b) := by
  intro xs
  induction xs with
  | nil =>
    intro ys n a b hx hy
    simp at hx
    subst hx
    simp at hy
    simp [hy]
  | cons x xs ih =>
    intro ys n a b hx hy
    cases n with
    | zero => simp at hx
    | succ k =>
      cases ys with
      | nil => simp at hy
      | cons y ys =>
        simp only [List.map_cons, List.replicate_succ, List.cons.injEq] at hx hy
        simp only [List.zipWith_cons_cons, List.map_cons, List.replicate_succ,
          List.cons.injEq]
        exact ⟨by rw [List.length_append, hx.1, hy.1], ih ys k a b hx.2 hy.2⟩

theorem map_length_zipWith_map {υ φ φ2 : Type} (g : υ → φ → φ2) :
    ∀ (vs : List υ) (ss : List (List φ)),
      (List.zipWith (fun v s => s.map (g v)) vs ss).map List.length =
        List.zipWith (fun _ s => List.length s) vs ss := by
  intro vs
  induction vs with
  | nil => intro ss; simp
  | cons v vs ih =>
    intro ss
    cases ss with
    | nil => simp
    | cons s ss => simp [ih]

theorem zipWith_const_length {υ φ : Type} :
    ∀ (vs : List υ) (ss : List (List φ)) (n c : Nat),
      vs.length = n → ss.map List.length = List.replicate n c →
      List.zipWith (fun _ s => List.length s) vs ss = List.replicate n c := by
  intro vs
  induction vs with
  | nil =>
    intro ss n c hv hs
    simp at hv
    subst hv
    simp
  | cons v vs ih =>
    intro ss n c hv hs
    cases n with
    | zero => simp at hv
    | succ k =>
      cases ss with
      | nil => simp at hs
      | cons s ss =>
        simp only [List.map_cons, List.replicate_succ, List.cons.injEq] at hs
        simp only [List.length_cons, Nat.add_right_cancel_iff] at hv
        simp only [List.zipWith_cons_cons, List.replicate_succ, List.cons.injEq]
        exact ⟨hs.1, ih ss k c hv hs.2⟩

theorem map_length_sub {φ : Type} (l : List (List φ)) (n a K : Nat)
    (h : l.map List.length = List.replicate n a) :
    l.map (fun s => s.length - K) = List.replicate n (a - K) := by
  have : l.map (fun s => s.length - K) = (l.map List.length).map (fun m => m - K) := by
    rw [List.map_map]
    rfl
  rw [this, h, List.map_replicate]

theorem seqLen_of_map_replicate {φ : Type} (l : List (List φ)) (n c : Nat)
    (h : l.map List.length = List.replicate n c) (hn : 0 < n) : seqLen l = c := by
  cases l with
  | nil =>
    simp at h
    omega
  | cons s t =>
    cases n with
    | zero => omega
    | succ k =>
      simp only [List.map_cons, List.replicate_succ, List.cons.injEq] at h
      exact h.1

theorem dbl_stack_shape {φ υ π : Type}
    (vec : List υ) (pe : List π) :
    ∀ (blks : List (List (List φ) → List (List φ) → List υ → List π →
        List (List φ) × List (List φ))),
      (∀ blk ∈ blks, ∀ i t v p,
        ((blk i t v p).1.map List.length = i.map List.length) ∧
        ((blk i t v p).2.map List.length = t.map List.length)) →
      ∀ st : List (List φ) × List (List φ),
        ((blks.foldl (fun p blk => blk p.1 p.2 vec pe) st).1.map List.length =
          st.1.map List.length) ∧
        ((blks.foldl (fun p blk => blk p.1 p.2 vec pe) st).2.map List.length =
          st.2.map List.length) := by
  intro blks
  induction blks with
  | nil => intro _ st; exact ⟨rfl, rfl⟩
  | cons blk rest ih =>
    intro hc st
    have hblk := hc blk (by simp) st.1 st.2 vec pe
    have hrest := ih (fun b hb => hc b (by simp [hb])) (blk st.1 st.2 vec pe)
    rw [List.foldl_cons]
    exact ⟨hrest.1.trans hblk.1, hrest.2.trans hblk.2⟩

theorem sgl_stack_shape {φ υ π : Type}
    (vec : List υ) (pe : List π) :
    ∀ (blks : List (List (List φ) → List υ → List π → List (List φ))),
      (∀ blk ∈ blks, ∀ z v p, (blk z v p).map List.length = z.map List.length) →
      ∀ z : List (List φ),
        (blks.foldl (fun z blk => blk z vec pe) z).map List.length =
          z.map List.length := by
  intro blks
  induction blks with
  | nil => intro _ z; rfl
  | cons blk rest ih =>
    intro hc z
    rw [List.foldl_cons]
    exact (ih (fun b hb => hc b (by simp [hb])) (blk z vec pe)).trans
      (hc blk (by simp) z vec pe)

theorem map_length_map_drop {φ : Type} (l : List (List φ)) (K : Nat) :
    (l.map (List.drop K)).map List.length = l.map (fun s => s.length - K) := by
  rw [List.map_map]
  apply List.map_congr_left
  intro s _
  simp

theorem map_length_map_take {φ : Type} (l : List (List φ)) (K : Nat) :
    (l.map (List.take K)).map List.length = l.map (fun s => min K s.length) := by
  rw [List.map_map]
  apply List.map_congr_left
  intro s _
  simp

theorem map_length_min {φ : Type} (l : List (List φ)) (n a K : Nat)
    (h : l.map List.length = List.replicate n a) :
    l.map (fun s => min K s.length) = List.replicate n (min K a) := by
  have : l.map (fun s => min K s.length) =
      (l.map List.length).map (fun m => min K m) := by
    rw [List.map_map]
    rfl
  rw [this, h, List.map_replicate]

theorem flux_forward_orig_core_shape {φ υ π φ2 : Type} (ops : FluxOrigOps φ υ π φ2)
    (img txt : List (List φ)) (vec0 : List υ) (pe0 : List π)
    (B T L o : Nat)
    (himgB : img.length = B) (himgT : ∀ s ∈ img, s.length = T)
    (htxtB : txt.length = B + o) (htxtL : ∀ s ∈ txt, s.length = L)
    (hvec : vec0.length = B) (ho : 0 < o) (hoB : o ≤ B)
    (hdbl : ∀ blk ∈ ops.dblBlocks, ∀ i t v p,
      ((blk i t v p).1.map List.length = i.map List.length) ∧
      ((blk i t v p).2.map List.length = t.map List.length))
    (hsgl : ∀ blk ∈ ops.sglBlocks, ∀ z v p,
      (blk z v p).map List.length = z.map List.length) :
    (flux_forward_orig_core ops img txt vec0 pe0).map List.length =
      List.replicate B T := by
  have ho0 : txt.length - img.length = o := by omega
  have hone : o ≠ 0 := by omega
  have himgM : img.map List.length = List.replicate B T := by
    rw [List.eq_replicate_iff]
    refine ⟨by simp [himgB], ?_⟩
    intro b hb
    rcases List.mem_map.mp hb with ⟨s, hs, rfl⟩
    exact himgT s hs
  have htxtM : txt.map List.length = List.replicate (B + o) L := by
    rw [List.eq_replicate_iff]
    refine ⟨by simp [htxtB], ?_⟩
    intro b hb
    rcases List.mem_map.mp hb with ⟨s, hs, rfl⟩
    exact htxtL s hs
  simp only [flux_forward_orig_core, ho0]
  set vecE := vec0 ++ pyTakeLast o vec0 with hvecE
  set stT := ops.dblBlocks.foldl (fun p blk => blk p.1 p.2 vecE pe0) (img, txt)
    with hstT
  set img2T := if ops.dtypeF16 then stT.1.map (List.map ops.sanitizeTok) else stT.1
    with himg2T
  set peE := pe0 ++ pyTakeLast o pe0 with hpeE
  set img3T := img2T ++ pyTakeLast o img2T with himg3T
  set img4T := List.zipWith (fun t i => t ++ i) stT.2 img3T with himg4T
  set img5T := ops.sglBlocks.foldl (fun z blk => blk z vecE peE) img4T with himg5T
  set img6T := pyDropLast o img5T with himg6T
  set img7T := img6T.map (List.drop (seqLen stT.2)) with himg7T
  have hst := dbl_stack_shape vecE pe0 ops.dblBlocks hdbl (img, txt)
  rw [← hstT] at hst
  have hst1M : stT.1.map List.length = List.replicate B T := hst.1.trans himgM
  have hst2M : stT.2.map List.length = List.replicate (B + o) L := hst.2.trans htxtM
  have himg2M : img2T.map List.length = List.replicate B T := by
    rw [himg2T]
    split
    · rw [map_length_map_map]
      exact hst1M
    · exact hst1M
  have himg3M : img3T.map List.length = List.replicate (B + o) T := by
    rw [himg3T, List.map_append, pyTakeLast_map, himg2M,
      pyTakeLast_replicate o B T hone hoB, List.replicate_add]
  have himg4M : img4T.map List.length = List.replicate (B + o) (L + T) := by
    rw [himg4T]
    exact map_length_zipWith_append stT.2 img3T (B + o) L T hst2M himg3M
  have himg5M : img5T.map List.length = List.replicate (B + o) (L + T) := by
    rw [himg5T]
    exact (sgl_stack_shape vecE peE ops.sglBlocks hsgl img4T).trans himg4M
  have himg6M : img6T.map List.length = List.replicate B (L + T) := by
    rw [himg6T, pyDropLast_map, himg5M, pyDropLast_replicate _ _ _ hone]
    congr 1
    omega
  have hseq : seqLen stT.2 = L := seqLen_of_map_replicate stT.2 (B + o) L hst2M (by omega)
  have himg7M : img7T.map List.length = List.replicate B T := by
    rw [himg7T, map_length_map_drop, hseq, map_length_sub img6T B (L + T) L himg6M]
    congr 1
    omega
  have hvecB : (pyDropLast o vecE).length = B := by
    rw [pyDropLast_len, if_neg hone, hvecE, List.length_append,
      pyTakeLast_len, if_neg hone, hvec]
    omega
  rw [map_length_zipWith_map]
  exact zipWith_const_length (pyDropLast o vecE) img7T B T hvecB himg7M

/-- C1: a guided dual-stream forward call with latent batch size `B`, latent
token count `T`, text token count `L` and negative-conditioning batch size
`o` (the guided call of the claim has `o = B`) returns a tensor of batch
size `B` with `T` tokens per sample — the shape the spec assigns to a
baseline (non-guided) call: the batch expansion of `img`, `vec` and `pe` by
their last `o` rows is exactly reversed by stripping the trailing `o` batch
rows and the text-token prefix before the final layer, and the forward tail
keeps the first `T` (= `img_tokens`) positions. -/
theorem flux_guided_forward_shape {φ υ π φ2 : Type} (ops : FluxOrigOps φ υ π φ2)
    (img txt : List (List φ)) (vec0 : List υ) (pe0 : List π)
    (B T L o : Nat)
    (himgB : img.length = B) (himgT : ∀ s ∈ img, s.length = T)
    (htxtB : txt.length = B + o) (htxtL : ∀ s ∈ txt, s.length = L)
    (hvec : vec0.length = B) (ho : 0 < o) (hoB : o ≤ B)
    (hdbl : ∀ blk ∈ ops.dblBlocks, ∀ i t v p,
      ((blk i t v p).1.map List.length = i.map List.length) ∧
      ((blk i t v p).2.map List.length = t.map List.length))
    (hsgl : ∀ blk ∈ ops.sglBlocks, ∀ z v p,
      (blk z v p).map List.length = z.map List.length) :
    batchShape (flux_forward_out ops img txt vec0 pe0 T) =
      baselineFluxOutShape B T := by
  have hcore := flux_forward_orig_core_shape ops img txt vec0 pe0 B T L o
    himgB himgT htxtB htxtL hvec ho hoB hdbl hsgl
  have hlen : (flux_forward_orig_core ops img txt vec0 pe0).length = B := by
    have h2 := congrArg List.length hcore
    simpa using h2
  unfold flux_forward_out batchShape baselineFluxOutShape
  simp only [Prod.mk.injEq]
  constructor
  · simp [hlen]
  · rw [map_length_map_take,
      map_length_min (flux_forward_orig_core ops img txt vec0 pe0) B T T hcore,
      min_self]

/-- Trivial concrete collaborators for the flux forward shape witness. -/
def unitFluxOrigOps : FluxOrigOps Unit Unit Unit Unit where
  dblBlocks := [fun i t _ _ => (i, t)]
  sglBlocks := [fun z _ _ => z]
  dtypeF16 := true
  sanitizeTok := fun u => u
  finalTok := fun _ u => u

/-- Witness for the guided forward shape theorem at a concrete input. -/
theorem flux_guided_forward_shape_witness :
    batchShape (flux_forward_out unitFluxOrigOps [[(), ()]] [[()], [()]] [()] [()] 2) =
      baselineFluxOutShape 1 2 :=
  flux_guided_forward_shape unitFluxOrigOps [[(), ()]] [[()], [()]] [()] [()] 1 2 1 1
    rfl (by decide) rfl (by decide) rfl (by decide) (by decide)
    (by
      intro blk hblk i t v p
      simp only [unitFluxOrigOps, List.mem_singleton] at hblk
      subst hblk
      exact ⟨rfl, rfl⟩)
    (by
      intro blk hblk z v p
      simp only [unitFluxOrigOps, List.mem_singleton] at hblk
      subst hblk
      rfl)
